import Mathlib

/-!
Shallow embedding of the Accessibility Route Segmentation & Scoring Engine of
`route-for-wheelchair` (frontend `app/components/map.tsx`, backend
`src/controllers/reports.js`), with verified properties of its spec.

JavaScript numbers are modelled as real numbers `ℝ`; machine floating point
rounding is out of scope.  A geographic point `[lat, lng]` is a pair `ℝ × ℝ`.
-/

open Classical

/-- A coordinate pair `[lat, lng]` as used throughout `map.tsx`. -/
abbrev GeoPoint := ℝ × ℝ

/-- The closed accessibility tag set `'safe' | 'caution' | 'hazard'`
(field `accessibility` of `RouteSegment`, field `type` of `HazardPoint`,
where `info` plays the role of the third value for hazards). -/
inductive AccTag where
  | safe
  | caution
  | hazard
deriving DecidableEq, Repr

/-- Severity of a `HazardPoint`: `'hazard' | 'caution' | 'info'`. -/
inductive Severity where
  | hazard
  | caution
  | info
deriving DecidableEq, Repr

/-- `interface HazardPoint { lat; lng; type; category; description; icon }`. -/
structure HazardPoint where
  lat : ℝ
  lng : ℝ
  type : Severity
  category : String
  description : String
  icon : String

/-- `interface RouteSegment { coordinates; accessibility; surface?; description? }`. -/
structure RouteSegment where
  coordinates : List GeoPoint
  accessibility : AccTag
  surface : Option String
  description : Option String

/-- `interface RouteResult`. -/
structure RouteResult where
  segments : List RouteSegment
  totalDistance : ℝ
  estimatedTime : ℝ
  warnings : List String
  elevationProfile : List (ℝ × ℝ)

/-- JavaScript `Math.atan2 y x` on real arguments (signed zero ignored:
`atan2 0 0 = 0`, the value JS gives for `+0`). -/
noncomputable def atan2 (y x : ℝ) : ℝ :=
  if 0 < x then Real.arctan (y / x)
  else if x < 0 then
    (if 0 ≤ y then Real.arctan (y / x) + Real.pi else Real.arctan (y / x) - Real.pi)
  else
    (if 0 < y then Real.pi / 2 else if y < 0 then -(Real.pi / 2) else 0)

/-- `haversine(a, b)` from `map.tsx`: great-circle distance in meters with
mean Earth radius 6 371 000 m. -/
noncomputable def haversine (a b : GeoPoint) : ℝ :=
  let R : ℝ := 6371000
  let dLa := (b.1 - a.1) * Real.pi / 180
  let dLo := (b.2 - a.2) * Real.pi / 180
  let la1 := a.1 * Real.pi / 180
  let la2 := b.1 * Real.pi / 180
  let x := Real.sin (dLa / 2) ^ 2 + Real.cos la1 * Real.cos la2 * Real.sin (dLo / 2) ^ 2
  R * 2 * atan2 (Real.sqrt x) (Real.sqrt (1 - x))

lemma sin_neg_sq (t : ℝ) : Real.sin (-t) ^ 2 = Real.sin t ^ 2 := by
  rw [Real.sin_neg]; ring

/-- The haversine kernel `x` is symmetric in its two endpoints. -/
lemma haversine_symm (a b : GeoPoint) : haversine a b = haversine b a := by
  unfold haversine
  have h1 : (a.1 - b.1) * Real.pi / 180 / 2 = -((b.1 - a.1) * Real.pi / 180 / 2) := by ring
  have h2 : (a.2 - b.2) * Real.pi / 180 / 2 = -((b.2 - a.2) * Real.pi / 180 / 2) := by ring
  simp only [h1, h2, sin_neg_sq]
  ring_nf

/-- `haversine a a = 0`. -/
lemma haversine_self (a : GeoPoint) : haversine a a = 0 := by
  unfold haversine
  simp only [sub_self, zero_mul, zero_div, Real.sin_zero]
  norm_num [atan2, Real.sqrt_one, Real.arctan_zero]

/-- `estimateTime(dist, segs)` from `map.tsx`: weighted walking-speed model. -/
noncomputable def estimateTime (dist : ℝ) (segs : List RouteSegment) : ℝ :=
  if segs.length = 0 then dist / 1.0
  else
    let n : ℝ := segs.length
    let sr := ((segs.filter (fun s => s.accessibility = AccTag.safe)).length : ℝ) / n
    let cr := ((segs.filter (fun s => s.accessibility = AccTag.caution)).length : ℝ) / n
    let hr := ((segs.filter (fun s => s.accessibility = AccTag.hazard)).length : ℝ) / n
    dist / max (sr * 1.0 + cr * 0.65 + hr * 0.35) 0.2

/-- `sr` of `estimateTime`: fraction of segments (by count) tagged `safe`. -/
noncomputable def safeRatio (segs : List RouteSegment) : ℝ :=
  ((segs.filter fun s => s.accessibility = AccTag.safe).length : ℝ) / segs.length

/-- `cr` of `estimateTime`: fraction of segments tagged `caution`. -/
noncomputable def cautionRatio (segs : List RouteSegment) : ℝ :=
  ((segs.filter fun s => s.accessibility = AccTag.caution).length : ℝ) / segs.length

/-- `hr` of `estimateTime`: fraction of segments tagged `hazard`. -/
noncomputable def hazardRatio (segs : List RouteSegment) : ℝ :=
  ((segs.filter fun s => s.accessibility = AccTag.hazard).length : ℝ) / segs.length

lemma estimateTime_eq (dist : ℝ) (segs : List RouteSegment) (hne : segs ≠ []) :
    estimateTime dist segs
      = dist / max (safeRatio segs * 1.0 + cautionRatio segs * 0.65
          + hazardRatio segs * 0.35) 0.2 := by
  unfold estimateTime safeRatio cautionRatio hazardRatio
  rw [if_neg (by simpa using hne)]

/-- Inner loop of `classifySeg`: `for (const c of coords) if (haversine(c, [h.lat, h.lng]) < 30)
return h.type === 'hazard' ? 'hazard' : h.type === 'caution' ? 'caution' : 'safe'`. -/
noncomputable def scanPoints (h : HazardPoint) : List GeoPoint → Option AccTag
  | [] => none
  | c :: cs =>
    if haversine c (h.lat, h.lng) < 30 then
      some (if h.type = Severity.hazard then AccTag.hazard
            else if h.type = Severity.caution then AccTag.caution
            else AccTag.safe)
    else scanPoints h cs

/-- `classifySeg(coords, hazards)` from `map.tsx`: outer loop over hazards,
first hazard with some coordinate within 30 m decides the tag; `'safe'`
when no hazard is near. -/
noncomputable def classifySeg (coords : List GeoPoint) : List HazardPoint → AccTag
  | [] => AccTag.safe
  | h :: hs =>
    match scanPoints h coords with
    | some a => a
    | none => classifySeg coords hs

/-- The hazard catalog handed to `calcRoute` by `doRoute` in `map.tsx`:
`[...aPoints, ...reports.map(r => ({lat, lng, type: 'hazard', category: r.type,
icon: '📌', description: r.description}))]` — static accessibility points first,
then user reports, each report carried as a hazard-severity point. -/
def combinedHazards (aPoints : List HazardPoint)
    (reports : List (ℝ × ℝ × String × String)) : List HazardPoint :=
  aPoints ++ reports.map (fun r =>
    { lat := r.1, lng := r.2.1, type := Severity.hazard,
      category := r.2.2.1, icon := "📌", description := r.2.2.2 })

/-- The chunking loop of `buildResult`:
`for (let i = 0; i < coords.length - 1; i += chunk) { const sl = coords.slice(i,
Math.min(i + chunk + 1, coords.length)); ... }`.  The loop index is threaded
explicitly; `fuel` bounds the number of iterations (taking `fuel = coords.length`
is enough whenever the stride `c` is positive, see `reassemble_pathChunks`). -/
def chunkLoop (coords : List GeoPoint) (c : Nat) : Nat → Nat → List (List GeoPoint)
  | 0, _ => []
  | fuel + 1, i =>
    if i + 1 < coords.length then
      (coords.drop i).take (c + 1) :: chunkLoop coords c fuel (i + c)
    else []

/-- Chunk count `n = Math.min(10, Math.max(3, Math.floor(coords.length / 5)))`. -/
def chunkCount (coords : List GeoPoint) : Nat :=
  min 10 (max 3 (coords.length / 5))

/-- Chunk stride `chunk = Math.ceil(coords.length / n)`. -/
def chunkSize (coords : List GeoPoint) : Nat :=
  (coords.length + chunkCount coords - 1) / chunkCount coords

/-- The raw chunks produced by `buildResult`'s loop for a given path. -/
def pathChunks (coords : List GeoPoint) : List (List GeoPoint) :=
  chunkLoop coords (chunkSize coords) coords.length 0

/-- Segment construction in `buildResult`: chunks shorter than 2 points are
skipped (`if (sl.length < 2) continue`), the rest are classified and pushed. -/
noncomputable def routeSegments (coords : List GeoPoint) (hazards : List HazardPoint) :
    List RouteSegment :=
  ((pathChunks coords).filter (fun sl => 2 ≤ sl.length)).map (fun sl =>
    let acc := classifySeg sl hazards
    { coordinates := sl
      accessibility := acc
      surface := some (if acc = AccTag.safe then "Paved" else "Unknown")
      description := some (if acc = AccTag.safe then "Clear accessible path"
                           else if acc = AccTag.caution then "Proceed carefully"
                           else "Accessibility barrier") })

/-- `⚠️ ${hc} accessibility barrier${hc>1?'s':''} on this route`. -/
def hazardWarning (hc : Nat) : String :=
  "⚠️ " ++ toString hc ++ " accessibility barrier" ++ (if hc > 1 then "s" else "")
    ++ " on this route"

/-- `🔶 ${cc} caution area${cc>1?'s':''} — proceed with care`. -/
def cautionWarning (cc : Nat) : String :=
  "🔶 " ++ toString cc ++ " caution area" ++ (if cc > 1 then "s" else "")
    ++ " — proceed with care"

/-- The always-appended advisory line. -/
def genericAdvisory : String := "Verify accessibility features on ground"

/-- The warning block of `buildResult`: hazard-count line when `hc > 0`, then
caution-count line when `cc > 0`, then the generic advisory. -/
def routeWarnings (segs : List RouteSegment) : List String :=
  let hc := (segs.filter (fun s => s.accessibility = AccTag.hazard)).length
  let cc := (segs.filter (fun s => s.accessibility = AccTag.caution)).length
  (if hc ≠ 0 then [hazardWarning hc] else [])
    ++ (if cc ≠ 0 then [cautionWarning cc] else [])
    ++ [genericAdvisory]

/-- `buildResult(coords, dist, hazards)` from `map.tsx`. -/
noncomputable def buildResult (coords : List GeoPoint) (dist : ℝ)
    (hazards : List HazardPoint) : RouteResult :=
  let segs := routeSegments coords hazards
  { segments := segs
    totalDistance := dist
    estimatedTime := estimateTime dist segs
    warnings := routeWarnings segs
    elevationProfile := (List.range coords.length).map (fun i =>
      ((i : ℝ) / coords.length * dist, 780 + Real.sin (i * 0.3) * 15)) }

/-- The fallback path synthesized in `calcRoute`'s catch branch: 13 points from
`start` toward the midpoint latitude at constant longitude, 13 points along the
midpoint latitude toward `end`'s longitude, then `end` itself. -/
noncomputable def fallbackCoords (s e : GeoPoint) : List GeoPoint :=
  let mid := (s.1 + e.1) / 2
  ((List.range 13).map (fun i : ℕ => (s.1 + (mid - s.1) * ((i : ℝ) / 12), s.2)))
    ++ ((List.range 13).map (fun i : ℕ => (mid, s.2 + (e.2 - s.2) * ((i : ℝ) / 12))))
    ++ [(e.1, e.2)]

/-- Modelled from the spec: `start.distanceTo(end)` in `calcRoute` calls
Leaflet's `L.LatLng.distanceTo`, whose implementation is not part of this
repository; §4.1 of the spec specifies the great-circle (haversine) distance
with mean Earth radius 6 371 000 m for all point-to-point distances. -/
noncomputable def distanceTo (s e : GeoPoint) : ℝ := haversine s e

/-- `calcRoute`'s catch branch: the synthesized route returned on any
routing-provider failure, with the 25 % detour-penalty distance. -/
noncomputable def fallbackRoute (s e : GeoPoint) (hazards : List HazardPoint) :
    RouteResult :=
  buildResult (fallbackCoords s e) (distanceTo s e * 1.25) hazards

/-- The classifier as §4.4 of the spec words it: the first hazard `h` (in list
order) with some chunk point within 30 m decides the tag — `hazard` if
`h.severity == hazard`, else `safe` if `h.severity == info`, else `caution`;
`safe` when no hazard is within 30 m of any chunk point. -/
noncomputable def specClassify (coords : List GeoPoint) (hazards : List HazardPoint) :
    AccTag :=
  match hazards.find? (fun h => coords.any fun c => decide (haversine c (h.lat, h.lng) < 30)) with
  | some h => if h.type = Severity.hazard then AccTag.hazard
              else if h.type = Severity.info then AccTag.safe
              else AccTag.caution
  | none => AccTag.safe

/-- Concatenation of chunk coordinate sequences in order, dropping each later
chunk's duplicated first point (the point shared with the previous chunk). -/
def reassemble : List (List GeoPoint) → List GeoPoint
  | [] => []
  | ch :: rest => ch ++ (rest.map (fun l => l.drop 1)).flatten

/-- A JavaScript request-body value as seen by the backend: multipart form
fields arrive as strings, JSON bodies may also carry numbers. -/
inductive JValue where
  | str (s : String)
  | num (q : ℚ)
deriving DecidableEq, Repr

/-- JavaScript falsiness of an optional body field: `undefined`, the empty
string and the number `0` are falsy (`!x` is true). -/
def JValue.falsy : Option JValue → Bool
  | none => true
  | some (JValue.str s) => s == ""
  | some (JValue.num q) => q == 0

/-- The body of a `POST /reports` request as destructured by `createReport`
(`const { user_id, issue_type, description, lat, lng } = req.body`), plus the
optional uploaded file (`req.file`), carried as its stored filename. -/
structure ReportRequest where
  user_id : Option JValue
  issue_type : Option JValue
  description : Option JValue
  lat : Option JValue
  lng : Option JValue
  file : Option String
deriving DecidableEq, Repr

/-- A row of the `reports` table as inserted by `createReport`'s SQL statement,
holding the six query parameters (the `location` point is kept as the
`lng`/`lat` pair passed to `ST_MakePoint($5, $6)`). -/
structure ReportRow where
  user_id : Option JValue
  issue_type : Option JValue
  description : Option JValue
  photo_url : Option String
  lng : Option JValue
  lat : Option JValue
deriving DecidableEq, Repr

/-- The response sent by `createReport`: `res.status(400).json({error})` or
`res.status(201).json({report})`. -/
inductive ReportResponse where
  | badRequest (error : String)
  | created (report : ReportRow)
deriving DecidableEq, Repr

/-- `createReport` from `backend/src/controllers/reports.js`.  The validation
check and the construction of the query parameters are taken from the source;
the effect of `pool.query` itself is modelled from the spec: §4.7/§6 specify
that `create` persists the report row into the report store (the PostGIS
database is an external collaborator, not part of this repository). -/
def createReport (req : ReportRequest) (store : List ReportRow) :
    ReportResponse × List ReportRow :=
  if JValue.falsy req.issue_type || JValue.falsy req.description
      || JValue.falsy req.lat || JValue.falsy req.lng then
    (ReportResponse.badRequest "Missing required fields", store)
  else
    let photo_url := req.file
    let row : ReportRow :=
      { user_id := if JValue.falsy req.user_id then none else req.user_id
        issue_type := req.issue_type
        description := req.description
        photo_url := photo_url
        lng := req.lng
        lat := req.lat }
    (ReportResponse.created row, store ++ [row])

/-!  Classification lemmas  -/

/-- The tag `classifySeg` returns for a matched hazard:
`h.type === 'hazard' ? 'hazard' : h.type === 'caution' ? 'caution' : 'safe'`. -/
def codeTag (h : HazardPoint) : AccTag :=
  if h.type = Severity.hazard then AccTag.hazard
  else if h.type = Severity.caution then AccTag.caution
  else AccTag.safe

lemma scanPoints_eq (h : HazardPoint) (coords : List GeoPoint) :
    scanPoints h coords
      = if ∃ c ∈ coords, haversine c (h.lat, h.lng) < 30 then some (codeTag h)
        else none := by
  induction coords with
  | nil => simp [scanPoints]
  | cons c cs ih =>
    by_cases hc : haversine c (h.lat, h.lng) < 30
    · simp [scanPoints, hc, codeTag]
    · simp only [scanPoints, if_neg hc, ih, List.mem_cons]
      by_cases hrest : ∃ x ∈ cs, haversine x (h.lat, h.lng) < 30
      · obtain ⟨x, hx, hlt⟩ := hrest
        rw [if_pos ⟨x, hx, hlt⟩, if_pos ⟨x, Or.inr hx, hlt⟩]
      · rw [if_neg hrest, if_neg]
        rintro ⟨x, hx | hx, hlt⟩
        · exact hc (hx ▸ hlt)
        · exact hrest ⟨x, hx, hlt⟩

/-- On the closed severity set, the code's match mapping (`caution` explicit,
`safe` otherwise) coincides with the spec's (`info → safe`, `caution` otherwise). -/
lemma codeTag_eq_specTag (h : HazardPoint) :
    codeTag h = (if h.type = Severity.hazard then AccTag.hazard
                 else if h.type = Severity.info then AccTag.safe
                 else AccTag.caution) := by
  cases htype : h.type <;> simp [codeTag, htype]

/-- `classifySeg` implements exactly the spec's first-match classifier. -/
lemma classifySeg_eq_specClassify (coords : List GeoPoint) (hazards : List HazardPoint) :
    classifySeg coords hazards = specClassify coords hazards := by
  induction hazards with
  | nil => simp [classifySeg, specClassify]
  | cons h hs ih =>
    have hpred : ((coords.any fun c => decide (haversine c (h.lat, h.lng) < 30)) = true)
        ↔ ∃ c ∈ coords, haversine c (h.lat, h.lng) < 30 := by
      simp [List.any_eq_true]
    by_cases hit : ∃ c ∈ coords, haversine c (h.lat, h.lng) < 30
    · have hfind : List.find?
          (fun h' => coords.any fun c => decide (haversine c (h'.lat, h'.lng) < 30))
          (h :: hs) = some h :=
        List.find?_cons_of_pos _ (hpred.mpr hit)
      rw [classifySeg, scanPoints_eq, if_pos hit]
      unfold specClassify
      rw [hfind]
      exact codeTag_eq_specTag h
    · have hfind : List.find?
          (fun h' => coords.any fun c => decide (haversine c (h'.lat, h'.lng) < 30))
          (h :: hs)
          = List.find?
            (fun h' => coords.any fun c => decide (haversine c (h'.lat, h'.lng) < 30)) hs :=
        List.find?_cons_of_neg _ (by simpa [hpred] using hit)
      rw [classifySeg, scanPoints_eq, if_neg hit]
      unfold specClassify
      rw [hfind]
      exact ih

/-- When no hazard is within 30 m of any chunk point, `classifySeg` is `safe`. -/
lemma classifySeg_safe_of_far (coords : List GeoPoint) (hazards : List HazardPoint)
    (hfar : ∀ h ∈ hazards, ∀ c ∈ coords, ¬ haversine c (h.lat, h.lng) < 30) :
    classifySeg coords hazards = AccTag.safe := by
  rw [classifySeg_eq_specClassify]
  unfold specClassify
  have hnone : List.find?
      (fun h => coords.any fun c => decide (haversine c (h.lat, h.lng) < 30)) hazards
      = none := by
    rw [List.find?_eq_none]
    intro h hmem
    simp only [List.any_eq_true, decide_eq_true_eq, not_exists, not_and]
    intro c hc
    exact hfar h hmem c hc
  rw [hnone]

/-!  Time-model lemmas  -/

/-- Each segment carries exactly one of the three tags, so the three filter
counts partition the segment list. -/
lemma filter_acc_counts (segs : List RouteSegment) :
    (segs.filter (fun s => s.accessibility = AccTag.safe)).length
      + (segs.filter (fun s => s.accessibility = AccTag.caution)).length
      + (segs.filter (fun s => s.accessibility = AccTag.hazard)).length
      = segs.length := by
  induction segs with
  | nil => simp
  | cons s l ih =>
    cases h : s.accessibility <;> simp [List.filter_cons, h] <;> omega

/-- A throwaway concrete segment used to instantiate universally quantified
statements. -/
def trivialSegment : RouteSegment :=
  { coordinates := [], accessibility := AccTag.safe, surface := none, description := none }

/-!  Segmentation lemmas  -/

lemma chunkCount_bounds (coords : List GeoPoint) :
    3 ≤ chunkCount coords ∧ chunkCount coords ≤ 10 := by
  unfold chunkCount; omega

lemma chunkSize_pos (coords : List GeoPoint) (h : 1 ≤ coords.length) :
    1 ≤ chunkSize coords := by
  have hb := chunkCount_bounds coords
  unfold chunkSize
  rw [Nat.one_le_div_iff (by omega)]
  omega

lemma len_le_chunkSize_mul (coords : List GeoPoint) :
    coords.length ≤ chunkSize coords * chunkCount coords := by
  have hb := chunkCount_bounds coords
  have hpos : 0 < chunkCount coords := by omega
  have hdm := Nat.div_add_mod (coords.length + chunkCount coords - 1) (chunkCount coords)
  have hml := Nat.mod_lt (coords.length + chunkCount coords - 1) hpos
  rw [Nat.mul_comm] at hdm
  unfold chunkSize
  omega

/-- Dropping the duplicated first point of every chunk emitted from index `i`
onward and concatenating yields the path from index `i + 1` onward. -/
lemma chunkLoop_dropped_flatten (coords : List GeoPoint) (c : Nat) (hc : 1 ≤ c) :
    ∀ fuel i : Nat, coords.length ≤ i + fuel →
      ((chunkLoop coords c fuel i).map (fun l => l.drop 1)).flatten = coords.drop (i + 1) := by
  intro fuel
  induction fuel with
  | zero =>
    intro i hfuel
    rw [chunkLoop]
    simp [List.drop_eq_nil_of_le (show coords.length ≤ i + 1 by omega)]
  | succ fuel ih =>
    intro i hfuel
    rw [chunkLoop]
    by_cases hlt : i + 1 < coords.length
    · rw [if_pos hlt]
      simp only [List.map_cons, List.flatten_cons]
      rw [ih (i + c) (by omega)]
      have h1 : ((coords.drop i).take (c + 1)).drop 1 = (coords.drop (i + 1)).take c := by
        rw [List.drop_take, List.drop_drop, Nat.add_sub_cancel]
      have h2 : coords.drop (i + c + 1) = (coords.drop (i + 1)).drop c := by
        rw [List.drop_drop]
        congr 1
        omega
      rw [h1, h2, List.take_append_drop]
    · rw [if_neg hlt]
      simp [List.drop_eq_nil_of_le (show coords.length ≤ i + 1 by omega)]

/-- Reassembling the chunks of a ≥2-point path recovers the path. -/
lemma reassemble_pathChunks (coords : List GeoPoint) (h2 : 2 ≤ coords.length) :
    reassemble (pathChunks coords) = coords := by
  have hc : 1 ≤ chunkSize coords := chunkSize_pos coords (by omega)
  unfold pathChunks
  obtain ⟨fuel, hfuel⟩ : ∃ fuel, coords.length = fuel + 1 := ⟨coords.length - 1, by omega⟩
  rw [hfuel, chunkLoop, if_pos (by omega), reassemble,
    chunkLoop_dropped_flatten coords _ hc fuel (0 + chunkSize coords) (by omega)]
  simp only [List.drop_zero, Nat.zero_add]
  exact List.take_append_drop _ coords

/-- Every chunk the loop emits has at least two points (positive stride). -/
lemma chunkLoop_mem_length (coords : List GeoPoint) (c : Nat) (hc : 1 ≤ c) :
    ∀ fuel i : Nat, ∀ ch ∈ chunkLoop coords c fuel i, 2 ≤ ch.length := by
  intro fuel
  induction fuel with
  | zero => intro i ch hch; rw [chunkLoop] at hch; simp at hch
  | succ fuel ih =>
    intro i ch hch
    rw [chunkLoop] at hch
    by_cases hlt : i + 1 < coords.length
    · rw [if_pos hlt] at hch
      rcases List.mem_cons.mp hch with hhd | htl
      · subst hhd
        rw [List.length_take, List.length_drop]
        omega
      · exact ih (i + c) ch htl
    · rw [if_neg hlt] at hch; simp at hch

/-- The short-chunk guard `if (sl.length < 2) continue` never fires. -/
lemma pathChunks_filter_eq (coords : List GeoPoint) (h2 : 2 ≤ coords.length) :
    (pathChunks coords).filter (fun sl => 2 ≤ sl.length) = pathChunks coords := by
  apply List.filter_eq_self.mpr
  intro ch hch
  simpa using chunkLoop_mem_length coords _ (chunkSize_pos coords (by omega))
    coords.length 0 ch hch

/-- The number of chunks the loop emits from index `i`, given enough fuel. -/
lemma chunkLoop_count (coords : List GeoPoint) (c : Nat) (hc : 1 ≤ c) :
    ∀ fuel i : Nat, coords.length ≤ i + fuel →
      (chunkLoop coords c fuel i).length
        = if i + 1 < coords.length then (coords.length - i - 2) / c + 1 else 0 := by
  intro fuel
  induction fuel with
  | zero =>
    intro i h
    rw [chunkLoop, if_neg (by omega)]
    rfl
  | succ fuel ih =>
    intro i h
    rw [chunkLoop]
    by_cases hlt : i + 1 < coords.length
    · rw [if_pos hlt, if_pos hlt, List.length_cons, ih (i + c) (by omega)]
      by_cases hlt2 : i + c + 1 < coords.length
      · rw [if_pos hlt2,
          show coords.length - i - 2 = coords.length - (i + c) - 2 + c from by omega,
          Nat.add_div_right _ (by omega)]
      · rw [if_neg hlt2, Nat.div_eq_of_lt (by omega)]
    · rw [if_neg hlt, if_neg hlt]
      rfl

lemma pathChunks_count (coords : List GeoPoint) (h2 : 2 ≤ coords.length) :
    (pathChunks coords).length = (coords.length - 2) / chunkSize coords + 1 := by
  have hc := chunkSize_pos coords (by omega)
  unfold pathChunks
  rw [chunkLoop_count coords _ hc coords.length 0 (by omega), if_pos (by omega)]
  simp

/-- Each chunk after the first begins with the last point of the previous
chunk: the loop advances by `c` while each chunk spans `c + 1` points. -/
lemma chunkLoop_chain (coords : List GeoPoint) (c : Nat) (hc : 1 ≤ c) :
    ∀ fuel i : Nat,
      List.Chain' (fun a b => b.head? = a.getLast?) (chunkLoop coords c fuel i) := by
  intro fuel
  induction fuel with
  | zero => intro i; rw [chunkLoop]; exact List.chain'_nil
  | succ fuel ih =>
    intro i
    rw [chunkLoop]
    by_cases hlt : i + 1 < coords.length
    · rw [if_pos hlt, List.chain'_cons']
      refine ⟨?_, ih (i + c)⟩
      intro y hy
      cases fuel with
      | zero => rw [chunkLoop] at hy; simp at hy
      | succ fuel' =>
        rw [chunkLoop] at hy
        by_cases hlt2 : i + c + 1 < coords.length
        · rw [if_pos hlt2] at hy
          simp only [List.head?_cons, Option.mem_def, Option.some.injEq] at hy
          subst hy
          have hhead : ((coords.drop (i + c)).take (c + 1)).head? = coords[i + c]? := by
            rw [List.head?_eq_getElem?, List.getElem?_take, if_pos (by omega),
              List.getElem?_drop, Nat.add_zero]
          have hlen : ((coords.drop i).take (c + 1)).length = c + 1 := by
            rw [List.length_take, List.length_drop]
            omega
          have hlast : ((coords.drop i).take (c + 1)).getLast? = coords[i + c]? := by
            rw [List.getLast?_eq_getElem?, hlen, Nat.add_sub_cancel,
              List.getElem?_take, if_pos (by omega), List.getElem?_drop]
          rw [hhead, hlast]
        · rw [if_neg hlt2] at hy; simp at hy
    · rw [if_neg hlt]; exact List.chain'_nil

/-!  Concrete inputs used by witnesses and counterexamples  -/

/-- A 4-point path. -/
def coords4 : List GeoPoint := [((0 : ℝ), (0 : ℝ)), (0, 1), (1, 0), (1, 1)]

/-- A 5-point path. -/
def coords5 : List GeoPoint := [((0 : ℝ), (0 : ℝ)), (0, 1), (0, 2), (0, 3), (0, 4)]

/-- A caution-severity hazard point at the origin. -/
def originCaution : HazardPoint :=
  { lat := 0, lng := 0, type := Severity.caution, category := "narrow_path",
    description := "Tight passage", icon := "↔️" }

/-- A hazard-severity hazard point at the origin. -/
def originHazard : HazardPoint :=
  { lat := 0, lng := 0, type := Severity.hazard, category := "pothole",
    description := "Large pothole", icon := "🕳️" }

/-!  Claim theorems  -/

/-- C8: the haversine distance is symmetric, `distance(A, B) = distance(B, A)`,
and zero on the diagonal, `distance(A, A) = 0`. -/
theorem haversine_symm_self :
    (∀ a b : GeoPoint, haversine a b = haversine b a)
    ∧ ∀ a : GeoPoint, haversine a a = 0 :=
  ⟨haversine_symm, haversine_self⟩

/-- C1: `classifySeg` scans hazards in catalog order and returns, at the first
hazard–point pair within 30 m, `hazard` for severity `hazard`, `safe` for
severity `info`, and `caution` otherwise (the spec's first-match classifier,
`specClassify`); if no hazard is within 30 m of any chunk point it returns
`safe`. -/
theorem classifySeg_first_match :
    (∀ (coords : List GeoPoint) (hazards : List HazardPoint),
        classifySeg coords hazards = specClassify coords hazards)
    ∧ ∀ (coords : List GeoPoint) (hazards : List HazardPoint),
        (∀ h ∈ hazards, ∀ c ∈ coords, ¬ haversine c (h.lat, h.lng) < 30) →
        classifySeg coords hazards = AccTag.safe :=
  ⟨classifySeg_eq_specClassify, classifySeg_safe_of_far⟩

theorem classifySeg_first_match_witness :
    classifySeg [((0 : ℝ), (0 : ℝ))] [] = specClassify [((0 : ℝ), (0 : ℝ))] []
    ∧ classifySeg [((0 : ℝ), (0 : ℝ))] [] = AccTag.safe :=
  ⟨classifySeg_first_match.1 [((0 : ℝ), (0 : ℝ))] [],
    classifySeg_first_match.2 [((0 : ℝ), (0 : ℝ))] [] (by simp)⟩

/-- C5 counterexample: the chunk `[(0,0)]` has a point within 29 m of the
hazard-severity point `originHazard`, yet `classifySeg` does not return
`hazard`, because the caution-severity point `originCaution` appears first in
the hazard list and is also within 30 m. -/
theorem classifySeg_threshold_counterexample :
    originHazard.type = Severity.hazard
    ∧ haversine ((0 : ℝ), (0 : ℝ)) (originHazard.lat, originHazard.lng) < 29
    ∧ classifySeg [((0 : ℝ), (0 : ℝ))] [originCaution, originHazard] ≠ AccTag.hazard := by
  refine ⟨rfl, ?_, ?_⟩
  · rw [show (originHazard.lat, originHazard.lng) = ((0 : ℝ), (0 : ℝ)) from rfl,
      haversine_self]
    norm_num
  · have h0 : haversine ((0 : ℝ), (0 : ℝ)) (originCaution.lat, originCaution.lng) < 30 := by
      rw [show (originCaution.lat, originCaution.lng) = ((0 : ℝ), (0 : ℝ)) from rfl,
        haversine_self]
      norm_num
    rw [classifySeg, scanPoints_eq, if_pos ⟨((0 : ℝ), (0 : ℝ)), by simp, h0⟩]
    simp [codeTag, originCaution]

/-- C5 (amended): if a hazard-severity point lies within 29 m of some chunk
point and no hazard preceding it in the catalog is within 30 m of any chunk
point, `classifySeg` returns `hazard`; and if every hazard is more than 31 m
from every chunk point, it returns `safe`. -/
theorem classifySeg_threshold :
    (∀ (coords : List GeoPoint) (pre post : List HazardPoint) (h : HazardPoint),
        h.type = Severity.hazard →
        (∃ c ∈ coords, haversine c (h.lat, h.lng) < 29) →
        (∀ h' ∈ pre, ∀ c ∈ coords, ¬ haversine c (h'.lat, h'.lng) < 30) →
        classifySeg coords (pre ++ h :: post) = AccTag.hazard)
    ∧ ∀ (coords : List GeoPoint) (hazards : List HazardPoint),
        (∀ h ∈ hazards, ∀ c ∈ coords, 31 < haversine c (h.lat, h.lng)) →
        classifySeg coords hazards = AccTag.safe := by
  constructor
  · intro coords pre post h htype hnear
    induction pre with
    | nil =>
      intro _
      have hsome : ∃ c ∈ coords, haversine c (h.lat, h.lng) < 30 := by
        obtain ⟨c, hc, hlt⟩ := hnear
        exact ⟨c, hc, by linarith⟩
      rw [List.nil_append, classifySeg, scanPoints_eq, if_pos hsome]
      simp [codeTag, htype]
    | cons p pre' ih =>
      intro hfarpre
      have hnone : ¬ ∃ c ∈ coords, haversine c (p.lat, p.lng) < 30 := by
        rintro ⟨c, hc, hlt⟩
        exact hfarpre p (List.mem_cons_self p pre') c hc hlt
      rw [List.cons_append, classifySeg, scanPoints_eq, if_neg hnone]
      exact ih fun h' hh' => hfarpre h' (List.mem_cons_of_mem p hh')
  · intro coords hazards hfar
    exact classifySeg_safe_of_far coords hazards fun h hh c hc hlt => by
      have := hfar h hh c hc
      linarith

theorem classifySeg_threshold_witness :
    classifySeg [((0 : ℝ), (0 : ℝ))] ([] ++ originHazard :: []) = AccTag.hazard
    ∧ classifySeg [((1 : ℝ), (1 : ℝ))] [] = AccTag.safe := by
  constructor
  · refine classifySeg_threshold.1 [((0 : ℝ), (0 : ℝ))] [] [] originHazard rfl
      ⟨((0 : ℝ), (0 : ℝ)), by simp, ?_⟩ (by simp)
    rw [show (originHazard.lat, originHazard.lng) = ((0 : ℝ), (0 : ℝ)) from rfl,
      haversine_self]
    norm_num
  · exact classifySeg_threshold.2 [((1 : ℝ), (1 : ℝ))] [] (by simp)

/-- Mapping segment construction and then projecting `coordinates` is the
identity on the chunk list. -/
lemma map_coordinates_of (f : List GeoPoint → RouteSegment)
    (hf : ∀ sl, (f sl).coordinates = sl) :
    ∀ L : List (List GeoPoint), (L.map f).map (fun s => s.coordinates) = L := by
  intro L
  induction L with
  | nil => rfl
  | cons a l ih => simp [hf, ih]

lemma routeSegments_coordinates (coords : List GeoPoint) (hazards : List HazardPoint)
    (h2 : 2 ≤ coords.length) :
    ((routeSegments coords hazards).map fun s => s.coordinates) = pathChunks coords := by
  unfold routeSegments
  rw [map_coordinates_of _ (fun _ => rfl), pathChunks_filter_eq coords h2]

/-- C2: for every path with at least 2 points, concatenating the retained
chunks' coordinate sequences in order — dropping each later chunk's duplicated
first point — yields exactly the original path. -/
theorem segmentation_completeness (coords : List GeoPoint) (hazards : List HazardPoint)
    (h2 : 2 ≤ coords.length) :
    reassemble ((routeSegments coords hazards).map fun s => s.coordinates) = coords := by
  rw [routeSegments_coordinates coords hazards h2]
  exact reassemble_pathChunks coords h2

theorem segmentation_completeness_witness :
    reassemble ((routeSegments coords4 []).map fun s => s.coordinates) = coords4 :=
  segmentation_completeness coords4 [] (by norm_num [coords4])

/-- C6 counterexample: a 5-point path produces 2 chunks, although
`clamp(floor(5/5), 3, 10) = 3`. -/
theorem segment_count_counterexample :
    chunkCount coords5 = 3 ∧ (routeSegments coords5 []).length = 2
    ∧ (routeSegments coords5 []).length ≠ chunkCount coords5 := by
  refine ⟨rfl, rfl, ?_⟩
  rw [show (routeSegments coords5 []).length = 2 from rfl,
    show chunkCount coords5 = 3 from rfl]
  decide

/-- C6 (amended): for a path of length `L ≥ 2` the loop emits
`(L − 2) / chunkSize + 1` chunks — never more than `n = clamp(floor(L/5), 3, 10)`
but possibly fewer — with stride `chunkSize = ceil(L/n)`; each chunk after the
first begins with the last point of the previous chunk, and every retained
chunk has at least 2 points (the `< 2` discard guard never fires for `L ≥ 2`). -/
theorem routeSegments_shape (coords : List GeoPoint) (hazards : List HazardPoint)
    (h2 : 2 ≤ coords.length) :
    (routeSegments coords hazards).length = (coords.length - 2) / chunkSize coords + 1
    ∧ (routeSegments coords hazards).length ≤ chunkCount coords
    ∧ chunkSize coords = (coords.length + chunkCount coords - 1) / chunkCount coords
    ∧ List.Chain' (fun a b => b.head? = a.getLast?)
        ((routeSegments coords hazards).map fun s => s.coordinates)
    ∧ ∀ s ∈ routeSegments coords hazards, 2 ≤ s.coordinates.length := by
  have hc := chunkSize_pos coords (by omega)
  have hlen : (routeSegments coords hazards).length = (pathChunks coords).length := by
    unfold routeSegments
    rw [List.length_map, pathChunks_filter_eq coords h2]
  have hmapc : ((routeSegments coords hazards).map fun s => s.coordinates)
      = pathChunks coords := routeSegments_coordinates coords hazards h2
  refine ⟨?_, ?_, rfl, ?_, ?_⟩
  · rw [hlen]
    exact pathChunks_count coords h2
  · rw [hlen, pathChunks_count coords h2]
    have hmul := len_le_chunkSize_mul coords
    have hb := chunkCount_bounds coords
    have hdiv : (coords.length - 2) / chunkSize coords < chunkCount coords := by
      rw [Nat.div_lt_iff_lt_mul (by omega)]
      rw [Nat.mul_comm] at hmul
      omega
    omega
  · rw [hmapc]
    exact chunkLoop_chain coords _ hc coords.length 0
  · intro s hs
    unfold routeSegments at hs
    obtain ⟨sl, hsl, rfl⟩ := List.mem_map.mp hs
    exact chunkLoop_mem_length coords _ hc coords.length 0 sl (List.mem_of_mem_filter hsl)

theorem routeSegments_shape_witness :
    (routeSegments coords4 []).length = (coords4.length - 2) / chunkSize coords4 + 1 :=
  (routeSegments_shape coords4 [] (by norm_num [coords4])).1

/-- C3: for d ≥ 0, `estimateTime` divides d by
`max(sr*1.0 + cr*0.65 + hr*0.35, 0.2)` on a non-empty segment list, and for
every segment mix (the empty list included) `estimateTime d segs ≤ d / 0.2`. -/
theorem estimateTime_speed_floor (d : ℝ) (segs : List RouteSegment) (hd : 0 ≤ d) :
    (segs ≠ [] →
      estimateTime d segs
        = d / max (safeRatio segs * 1.0 + cautionRatio segs * 0.65
            + hazardRatio segs * 0.35) 0.2)
    ∧ estimateTime d segs ≤ d / 0.2 := by
  constructor
  · exact estimateTime_eq d segs
  · rcases eq_or_ne segs [] with h | h
    · subst h
      rw [show estimateTime d [] = d / 1.0 from rfl,
        show (1.0 : ℝ) = 1 from by norm_num, div_one, le_div_iff₀ (by norm_num : (0:ℝ) < 0.2)]
      linarith
    · rw [estimateTime_eq d segs h]
      gcongr
      exact le_max_right _ _

theorem estimateTime_speed_floor_witness :
    estimateTime 1 [trivialSegment] ≤ 1 / 0.2 :=
  (estimateTime_speed_floor 1 [trivialSegment] (by norm_num)).2

/-- C10: on a non-empty segment list the three tag ratios sum to 1, so the
weighted factor is at least 0.35; the 0.2 floor is therefore never the selected
branch of the `max`, and `estimateTime d segs ≤ d / 0.35` for every d ≥ 0. -/
theorem estimateTime_floor_unreachable (d : ℝ) (segs : List RouteSegment)
    (hd : 0 ≤ d) (hne : segs ≠ []) :
    safeRatio segs + cautionRatio segs + hazardRatio segs = 1
    ∧ 0.35 ≤ safeRatio segs * 1.0 + cautionRatio segs * 0.65 + hazardRatio segs * 0.35
    ∧ estimateTime d segs
        = d / (safeRatio segs * 1.0 + cautionRatio segs * 0.65 + hazardRatio segs * 0.35)
    ∧ estimateTime d segs ≤ d / 0.35 := by
  have hn : (0 : ℝ) < (segs.length : ℝ) := by
    have hlen : segs.length ≠ 0 := by simpa using hne
    exact_mod_cast Nat.pos_of_ne_zero hlen
  have hsum : safeRatio segs + cautionRatio segs + hazardRatio segs = 1 := by
    unfold safeRatio cautionRatio hazardRatio
    rw [div_add_div_same, div_add_div_same, div_eq_one_iff_eq (ne_of_gt hn)]
    exact_mod_cast filter_acc_counts segs
  have hs0 : 0 ≤ safeRatio segs := by unfold safeRatio; positivity
  have hc0 : 0 ≤ cautionRatio segs := by unfold cautionRatio; positivity
  have hw : 0.35 ≤ safeRatio segs * 1.0 + cautionRatio segs * 0.65
      + hazardRatio segs * 0.35 := by linarith
  have hEq : estimateTime d segs
      = d / (safeRatio segs * 1.0 + cautionRatio segs * 0.65 + hazardRatio segs * 0.35) := by
    rw [estimateTime_eq d segs hne, max_eq_left (by linarith)]
  refine ⟨hsum, hw, hEq, ?_⟩
  rw [hEq]
  gcongr

theorem estimateTime_floor_unreachable_witness :
    estimateTime 1 [trivialSegment] ≤ 1 / 0.35 :=
  (estimateTime_floor_unreachable 1 [trivialSegment] (by norm_num) (by simp)).2.2.2

/-- A concrete hazard-tagged segment. -/
def hazardSegment : RouteSegment :=
  { coordinates := [], accessibility := AccTag.hazard, surface := none, description := none }

/-- A concrete caution-tagged segment. -/
def cautionSegment : RouteSegment :=
  { coordinates := [], accessibility := AccTag.caution, surface := none, description := none }

/-- C7: every scored route's warnings are exactly: the hazard-count line iff
`hc > 0`, then the caution-count line iff `cc > 0`, then the generic advisory;
in particular 2 hazard segments and 1 caution segment give exactly those three
lines in order. -/
theorem warnings_order :
    (∀ (coords : List GeoPoint) (dist : ℝ) (hazards : List HazardPoint),
        (buildResult coords dist hazards).warnings
          = routeWarnings (routeSegments coords hazards))
    ∧ (∀ segs : List RouteSegment,
        routeWarnings segs
          = (if 0 < (segs.filter fun s => s.accessibility = AccTag.hazard).length
             then [hazardWarning (segs.filter fun s => s.accessibility = AccTag.hazard).length]
             else [])
            ++ (if 0 < (segs.filter fun s => s.accessibility = AccTag.caution).length
                then [cautionWarning
                  (segs.filter fun s => s.accessibility = AccTag.caution).length]
                else [])
            ++ [genericAdvisory])
    ∧ ∀ segs : List RouteSegment,
        (segs.filter fun s => s.accessibility = AccTag.hazard).length = 2 →
        (segs.filter fun s => s.accessibility = AccTag.caution).length = 1 →
        routeWarnings segs = [hazardWarning 2, cautionWarning 1, genericAdvisory] := by
  refine ⟨fun _ _ _ => rfl, fun segs => ?_, fun segs hh hcc => ?_⟩
  · unfold routeWarnings
    by_cases hh : (segs.filter fun s => s.accessibility = AccTag.hazard).length = 0 <;>
      by_cases hcc : (segs.filter fun s => s.accessibility = AccTag.caution).length = 0 <;>
      simp [hh, hcc, Nat.pos_iff_ne_zero]
  · unfold routeWarnings
    simp only [hh, hcc]
    norm_num

theorem warnings_order_witness :
    routeWarnings [hazardSegment, hazardSegment, cautionSegment]
      = [hazardWarning 2, cautionWarning 1, genericAdvisory] :=
  warnings_order.2.2 [hazardSegment, hazardSegment, cautionSegment] rfl rfl

/-- The spec's fallback-scenario start point `(27.6196, 85.5385)`. -/
def fbStart : GeoPoint := (27.6196, 85.5385)

/-- The spec's fallback-scenario end point `(27.6200, 85.5395)`. -/
def fbEnd : GeoPoint := (27.6200, 85.5395)

/-- C4 counterexample: the synthesized fallback path for the spec's scenario
contains 27 points (two 13-point interpolation blocks plus the appended end
point), not the claimed 26. -/
theorem fallback_count_counterexample :
    (fallbackCoords fbStart fbEnd).length = 27
    ∧ (fallbackCoords fbStart fbEnd).length ≠ 26 := by
  constructor <;> simp [fallbackCoords]

/-- C4 (amended): on routing failure with the spec's start/end, the synthesized
path starts at `start`, ends at `end`, contains exactly 27 points
(13 + 13 + 1), and the reported distance is `haversine(start, end) * 1.25`. -/
theorem fallback_scenario :
    (fallbackCoords fbStart fbEnd).head? = some fbStart
    ∧ (fallbackCoords fbStart fbEnd).getLast? = some fbEnd
    ∧ (fallbackCoords fbStart fbEnd).length = 27
    ∧ ∀ hazards : List HazardPoint,
        (fallbackRoute fbStart fbEnd hazards).totalDistance
          = haversine fbStart fbEnd * 1.25 := by
  refine ⟨?_, ?_, by simp [fallbackCoords], fun _ => rfl⟩
  · unfold fallbackCoords
    rw [show List.range 13 = [0, 1, 2, 3, 4, 5, 6, 7, 8, 9, 10, 11, 12] from rfl]
    simp only [List.map_cons, List.cons_append, List.head?_cons, Option.some.injEq]
    rw [Prod.ext_iff]
    norm_num
  · unfold fallbackCoords
    exact List.getLast?_concat _

/-- A report request whose latitude is present but not a number. -/
def bogusLatRequest : ReportRequest :=
  { user_id := none, issue_type := some (JValue.str "pothole"),
    description := some (JValue.str "deep pothole"),
    lat := some (JValue.str "not-a-number"), lng := some (JValue.str "85.54"),
    file := none }

/-- A report request with a missing latitude. -/
def missingLatRequest : ReportRequest :=
  { user_id := none, issue_type := some (JValue.str "pothole"),
    description := some (JValue.str "deep pothole"), lat := none,
    lng := some (JValue.num (8554 / 100)), file := none }

/-- C9 counterexample: a request with a present but non-numeric latitude is not
rejected with the validation error — it proceeds past validation and a row is
written to the report store. -/
theorem createReport_counterexample :
    (createReport bogusLatRequest []).1
        ≠ ReportResponse.badRequest "Missing required fields"
    ∧ (createReport bogusLatRequest []).2 ≠ ([] : List ReportRow) := by
  constructor <;> decide

/-- C9 (amended): `createReport` rejects with the 400 validation error and
leaves the store unchanged exactly when one of `issue_type`, `description`,
`lat`, `lng` is missing or JS-falsy (empty string, the number 0); any other
request — including one whose coordinates are non-numeric strings — proceeds to
the insert, appending exactly one row to the store. -/
theorem createReport_validation (req : ReportRequest) (store : List ReportRow) :
    ((JValue.falsy req.issue_type || JValue.falsy req.description
        || JValue.falsy req.lat || JValue.falsy req.lng) = true →
      createReport req store = (ReportResponse.badRequest "Missing required fields", store))
    ∧ ((JValue.falsy req.issue_type || JValue.falsy req.description
        || JValue.falsy req.lat || JValue.falsy req.lng) = false →
      ∃ row, createReport req store = (ReportResponse.created row, store ++ [row])) := by
  constructor
  · intro h
    simp [createReport, h]
  · intro h
    refine ⟨{ user_id := if JValue.falsy req.user_id then none else req.user_id,
              issue_type := req.issue_type, description := req.description,
              photo_url := req.file, lng := req.lng, lat := req.lat }, ?_⟩
    simp [createReport, h]

theorem createReport_validation_witness :
    createReport missingLatRequest []
      = (ReportResponse.badRequest "Missing required fields", ([] : List ReportRow)) :=
  (createReport_validation missingLatRequest []).1 rfl
